import Mathlib

/-
  Verification development for the veracode-sca GitHub action
  (source file: src/srcclr.ts).

  The embedding works over List Char as the text type.  The four regular
  expressions at srcclr.ts lines 42-47 are embedded as deterministic
  anchored matchers; this is exact because in each of them every
  character class is disjoint from the literal that follows it (a
  whitespace run is never followed by a whitespace-class character, the
  optional letter s is resolved by one character of lookahead), so the
  greedy backtracking search of the regex engine coincides with maximal
  munch.  String.prototype.match without the g flag yields only the
  leftmost match, embedded by the scan function below.
-/

/-- The character set matched by the JavaScript regex class backslash-s
and trimmed by String.prototype.trim: ASCII whitespace controls, space,
and the Unicode space separators, plus BOM. -/
def isWs (c : Char) : Bool :=
  c == ' ' || c == '\t' || c == '\n' || c == '\r' || c == '\u000B' || c == '\u000C' ||
  c == '\u00A0' || c == '\u1680' || (('\u2000' ≤ c) && (c ≤ '\u200A')) ||
  c == '\u2028' || c == '\u2029' || c == '\u202F' || c == '\u205F' ||
  c == '\u3000' || c == '\uFEFF'

def notWs (c : Char) : Bool := !isWs c

/-- The class [:\s] used by patterns 2 and 4. -/
def colonWs (c : Char) : Bool := (c == ':') || isWs c

/-- The class [^\r\n] used by pattern 4. -/
def notCrLf (c : Char) : Bool := !((c == '\r') || (c == '\n'))

/-- ASCII case folding, the canonicalisation performed by the i flag on
the patterns (all pattern literals are ASCII). -/
def lcChar (c : Char) : Char :=
  if 'A' ≤ c ∧ c ≤ 'Z' then Char.ofNat (c.toNat + 32) else c

/-- String.prototype.trim, left side. -/
def trimL (cs : List Char) : List Char := cs.dropWhile isWs

/-- String.prototype.trim (srcclr.ts line 66: match[1].trim()). -/
def trim (cs : List Char) : List Char := ((trimL cs).reverse.dropWhile isWs).reverse

/-- String.prototype.startsWith for lists, case sensitive. -/
def startsWithL : List Char → List Char → Bool
  | [], _ => true
  | _ :: _, [] => false
  | p :: ps, c :: cs => (p == c) && startsWithL ps cs

/-- The validation at srcclr.ts line 68 and line 87:
url.startsWith applied to the two scheme literals, case sensitive. -/
def validateUrl (u : List Char) : Bool :=
  startsWithL "http://".data u || startsWithL "https://".data u

/-- Case insensitive literal matcher: the literal is given already folded
(lower case); consumes it from the input and returns the rest. -/
def matchLit : List Char → List Char → Option (List Char)
  | [], rest => some rest
  | _ :: _, [] => none
  | l :: ls, c :: cs => if lcChar c = l then matchLit ls cs else none

/-- Case insensitive literal matcher that also returns the consumed input
characters (needed because a capture keeps the original case). -/
def matchLitC : List Char → List Char → Option (List Char × List Char)
  | [], rest => some ([], rest)
  | _ :: _, [] => none
  | l :: ls, c :: cs =>
    if lcChar c = l then
      match matchLitC ls cs with
      | some (tk, rest) => some (c :: tk, rest)
      | none => none
    else none

/-- Greedy plus over a character class: requires at least one character,
consumes the maximal run, returns the rest.  Embeds backslash-s+ and
[:\s]+ in the patterns, where the following literal is always outside
the class, so maximal munch is exact. -/
def matchClassPlus (p : Char → Bool) : List Char → Option (List Char)
  | [] => none
  | c :: rest => if p c then some (rest.dropWhile p) else none

/-- Greedy plus over a character class in capture position: returns the
maximal nonempty run together with the rest of the input. -/
def capturePlus (p : Char → Bool) : List Char → Option (List Char × List Char)
  | [] => none
  | c :: rest => if p c then some (c :: rest.takeWhile p, rest.dropWhile p) else none

/-- The scheme part https?:// of the capture groups, case insensitive as
in the source patterns (the i flag covers the whole regex); returns the
consumed characters in original case and the remaining input.  The
optional s is decided by one character of lookahead, which is exact
because a failing s branch can never be rescued by the no-s branch. -/
def matchSchemeSlash (cs : List Char) : Option (List Char × List Char) :=
  match matchLitC "http".data cs with
  | none => none
  | some (t1, r1) =>
    match r1 with
    | [] => none
    | c :: r2 =>
      if lcChar c = 's' then
        match matchLitC "://".data r2 with
        | some (t2, r3) => some (t1 ++ c :: t2, r3)
        | none => none
      else
        match matchLitC "://".data r1 with
        | some (t2, r3) => some (t1 ++ t2, r3)
        | none => none

/-- The common prefix of all four patterns:
Full backslash-s+ Report backslash-s+ Details, case insensitive. -/
def matchPhrase (cs : List Char) : Option (List Char) :=
  match matchLit "full".data cs with
  | none => none
  | some r1 =>
    match matchClassPlus isWs r1 with
    | none => none
    | some r2 =>
      match matchLit "report".data r2 with
      | none => none
      | some r3 =>
        match matchClassPlus isWs r3 with
        | none => none
        | some r4 => matchLit "details".data r4

/-- Pattern 1 (srcclr.ts line 43), anchored at the start of the input:
phrase, backslash-s+, capture https?:// followed by [^\s\r\n]+.
Returns the capture group. -/
def anchored1 (cs : List Char) : Option (List Char) :=
  match matchPhrase cs with
  | none => none
  | some r1 =>
    match matchClassPlus isWs r1 with
    | none => none
    | some r2 =>
      match matchSchemeSlash r2 with
      | none => none
      | some (sch, r3) =>
        match capturePlus notWs r3 with
        | none => none
        | some (tok, _) => some (sch ++ tok)

/-- Pattern 2 (srcclr.ts line 44), anchored: phrase, [:\s]+, capture
https?:// followed by [^\s\r\n]+. -/
def anchored2 (cs : List Char) : Option (List Char) :=
  match matchPhrase cs with
  | none => none
  | some r1 =>
    match matchClassPlus colonWs r1 with
    | none => none
    | some r2 =>
      match matchSchemeSlash r2 with
      | none => none
      | some (sch, r3) =>
        match capturePlus notWs r3 with
        | none => none
        | some (tok, _) => some (sch ++ tok)

/-- Pattern 3 (srcclr.ts line 45), anchored: phrase, backslash-s+,
capture any nonempty run of non whitespace. -/
def anchored3 (cs : List Char) : Option (List Char) :=
  match matchPhrase cs with
  | none => none
  | some r1 =>
    match matchClassPlus isWs r1 with
    | none => none
    | some r2 =>
      match capturePlus notWs r2 with
      | none => none
      | some (tok, _) => some tok

/-- Pattern 4 (srcclr.ts line 46), anchored: phrase, [:\s]+, capture
https?:// followed by [^\r\n]+ (greedy to end of line). -/
def anchored4 (cs : List Char) : Option (List Char) :=
  match matchPhrase cs with
  | none => none
  | some r1 =>
    match matchClassPlus colonWs r1 with
    | none => none
    | some r2 =>
      match matchSchemeSlash r2 with
      | none => none
      | some (sch, r3) =>
        match capturePlus notCrLf r3 with
        | none => none
        | some (tok, _) => some (sch ++ tok)

/-- Leftmost match: String.prototype.match without the g flag tries the
anchored pattern at position 0, 1, 2, ... and yields the first success. -/
def scan (m : List Char → Option (List Char)) : List Char → Option (List Char)
  | [] => m []
  | c :: rest =>
    match m (c :: rest) with
    | some r => some r
    | none => scan m rest

/-- One iteration of the loop at srcclr.ts lines 62-75 for one pattern:
if the pattern has a (leftmost) match, trim the capture and return it
when it passes validateUrl, otherwise fall through to the next pattern.
The capture groups are always nonempty, so the match[1] truthiness test
of line 65 is the same as the match succeeding. -/
def stepPattern (m : List Char → Option (List Char)) (out : List Char) : Option (List Char) :=
  match scan m out with
  | none => none
  | some cap => if validateUrl (trim cap) then some (trim cap) else none

/-- The pattern loop of srcclr.ts lines 62-75: first pattern whose
leftmost match passes validation wins. -/
def tryPatterns (out : List Char) : Option (List Char) :=
  match stepPattern anchored1 out with
  | some u => some u
  | none =>
    match stepPattern anchored2 out with
    | some u => some u
    | none =>
      match stepPattern anchored3 out with
      | some u => some u
      | none => stepPattern anchored4 out

/-- JSON values as produced by JSON.parse.  Strings are lists of
characters; numbers are modelled by integers, which is enough because
the code only ever consumes their truthiness. -/
inductive Json where
  | null
  | bool (b : Bool)
  | num (n : Int)
  | str (s : List Char)
  | arr (xs : List Json)
  | obj (kvs : List (String × Json))

/-- JavaScript object property lookup on the key-value list of a parsed
object; the last duplicate wins, as in JSON.parse. -/
def lookupKey (kvs : List (String × Json)) (k : String) : Option Json :=
  match kvs.reverse.find? (fun p => p.1 == k) with
  | some p => some p.2
  | none => none

/-- JavaScript truthiness of a JSON value, used by the guard chain at
srcclr.ts line 85. -/
def Json.truthy : Json → Bool
  | Json.null => false
  | Json.bool b => b
  | Json.num n => decide (n ≠ 0)
  | Json.str s => !s.isEmpty
  | Json.arr _ => true
  | Json.obj _ => true

/-- JavaScript property access base[k] on a parsed JSON value for the
keys the code uses (records, 0, metadata, report).  Access on null
throws (error); access on other primitives yields undefined (ok none);
arrays expose index 0; strings expose their first character at index 0. -/
def Json.propA : Json → String → Except Unit (Option Json)
  | Json.null, _ => Except.error ()
  | Json.obj kvs, k => Except.ok (lookupKey kvs k)
  | Json.arr xs, k => Except.ok (if k == "0" then xs.head? else none)
  | Json.str s, k =>
    Except.ok (if k == "0" then
                 (match s with
                  | [] => none
                  | c :: _ => some (Json.str [c]))
               else none)
  | Json.bool _, _ => Except.ok none
  | Json.num _, _ => Except.ok none

/-- The body of the try block at srcclr.ts lines 84-93 applied to the
parsed sidecar value: the truthiness-guarded chain
records, records[0], records[0].metadata, records[0].metadata.report,
then url.startsWith validation.  An error value models a thrown
TypeError (access on null, or startsWith on a truthy non-string);
ok none models falling through with no URL. -/
def sidecarExtract (j : Json) : Except Unit (Option (List Char)) :=
  match j.propA "records" with
  | Except.error e => Except.error e
  | Except.ok none => Except.ok none
  | Except.ok (some records) =>
    if records.truthy = false then Except.ok none else
    match records.propA "0" with
    | Except.error e => Except.error e
    | Except.ok none => Except.ok none
    | Except.ok (some r0) =>
      if r0.truthy = false then Except.ok none else
      match r0.propA "metadata" with
      | Except.error e => Except.error e
      | Except.ok none => Except.ok none
      | Except.ok (some md) =>
        if md.truthy = false then Except.ok none else
        match md.propA "report" with
        | Except.error e => Except.error e
        | Except.ok none => Except.ok none
        | Except.ok (some rep) =>
          if rep.truthy = false then Except.ok none else
          match rep with
          | Json.str s => Except.ok (if validateUrl s then some s else none)
          | _ => Except.error ()

/-- The value of records[0].metadata.report under JavaScript access
rules, with both undefined and thrown access collapsed to none.  Used
to state structural hypotheses about the sidecar document. -/
def reportAccess (j : Json) : Option Json :=
  match j.propA "records" with
  | Except.ok (some r) =>
    match r.propA "0" with
    | Except.ok (some r0) =>
      match r0.propA "metadata" with
      | Except.ok (some md) =>
        match md.propA "report" with
        | Except.ok (some rep) => some rep
        | _ => none
      | _ => none
    | _ => none
  | _ => none

/-- The sidecar fallback of srcclr.ts lines 80-99.  The state of the
sidecar file SCA_OUTPUT_FILE is modelled by its observable parse
outcome: none when existsSync is false or the read throws, some none
when the file exists but JSON.parse throws, some (some j) when it
parses to j.  The surrounding try/catch turns any thrown TypeError
into the no-URL outcome. -/
def sidecarAttempt : Option (Option Json) → Option (List Char)
  | none => none
  | some none => none
  | some (some j) =>
    match sidecarExtract j with
    | Except.error _ => none
    | Except.ok r => r

/-- extractScanUrl (srcclr.ts lines 29-105).  The empty-output guard of
line 32 (a falsy string is exactly the empty string), then the pattern
loop, then the sidecar fallback.  The core.info diagnostics of the
source are write-only logging and do not influence the result; they are
modelled in extractScanUrlCall below. -/
def extractScanUrl (out : List Char) (file : Option (Option Json)) : Option (List Char) :=
  if out = [] then none
  else
    match tryPatterns out with
    | some u => some u
    | none => sidecarAttempt file

/-- The allow list at srcclr.ts lines 698-722. -/
def collectors : List (List Char) :=
  ["maven".data, "gradle".data, "ant".data, "jar".data, "sbt".data, "glide".data,
   "go get".data, "go mod".data, "godep".data, "dep".data, "govendor".data,
   "trash".data, "pip".data, "pipenv".data, "bower".data, "yarn".data, "npm".data,
   "cocoapods".data, "gem".data, "composer".data, "makefile".data, "dll".data,
   "msbuilddotnet".data]

/-- cleanCollectors (srcclr.ts lines 14-22): keep an entry when it is a
truthy (nonempty) string and its trimmed, lower-cased form occurs in
the allow list (indexOf greater than minus one), pushing the trimmed
lower-cased form, in input order. -/
def cleanCollectors : List (List Char) → List (List Char)
  | [] => []
  | x :: xs =>
    if x ≠ [] ∧ (trim x).map lcChar ∈ collectors then
      (trim x).map lcChar :: cleanCollectors xs
    else cleanCollectors xs

/-- Result of an execSync call on Windows: ok carries the stdout text on
a zero exit; error carries the stdout and stderr texts recovered from
the thrown error object on a non-zero exit. -/
def ExecResult : Type := Except (List Char × List Char) (List Char)

/-- The scan-url value produced by the Windows createIssues branch
(srcclr.ts lines 139-171).  On success, extraction runs on the captured
stdout.  In the catch block the local variable output is still the
empty string, because the execSync assignment at line 143 threw before
assigning; error.stdout and error.stderr are not consulted there, so
line 166 extracts from the empty string. -/
def winCreateIssuesScanUrl (result : ExecResult) (sc : Option (Option Json)) : Option (List Char) :=
  match result with
  | Except.ok output => extractScanUrl output sc
  | Except.error _ => extractScanUrl [] sc

/-- The scan-url value produced by the Windows branch without
createIssues (srcclr.ts lines 241-292).  On success, stderr of execSync
is not part of the returned text, so extraction sees stdout.  In the
catch block, output and stderrOutput are recovered from error.stdout
and error.stderr (lines 271-276) and extraction runs on their
concatenation (line 284). -/
def winNoIssuesScanUrl (result : ExecResult) (sc : Option (Option Json)) : Option (List Char) :=
  match result with
  | Except.ok output => extractScanUrl output sc
  | Except.error (eOut, eErr) => extractScanUrl (eOut ++ eErr) sc

/-- The scaResults.txt content written by the Windows branch without
createIssues (srcclr.ts lines 300-305): writeFileSync receives the
stdout text only, not the stdout+stderr concatenation; none models a
write that threw (the catch at line 303 only logs). -/
def winNoIssuesWritten (result : ExecResult) (writeOk : Bool) : Option (List Char) :=
  match result with
  | Except.ok output => if writeOk then some output else none
  | Except.error (eOut, _) => if writeOk then some eOut else none

/-- Observable outcome of the close handler of the spawn branch without
createIssues: the scan-url output value, the scaResults.txt content
written (none when the write threw), and whether setFailed was called. -/
structure ActionResult where
  scanUrl : Option (List Char)
  written : Option (List Char)
  failed : Bool

/-- The close handler of the spawn branch without createIssues
(srcclr.ts lines 537-680).  Arguments: the exit code delivered to the
close event, the accumulated stdout and stderr texts, the sidecar file
state, whether the writeFileSync of line 569 succeeds, the content of
scaResults.txt observed by the re-read of lines 577-589 (none when
missing or unreadable), and breakBuildOnPolicyFindings.  Extraction
runs on the stdout+stderr concatenation (lines 542-546); if it found
nothing, a second extraction runs on the file content when that is
longer (lines 576-598); setFailed fires when the code is positive and
break-build is set (lines 674-677); all of this is independent of the
write outcome, whose failure is only logged (lines 568-573). -/
def onCloseNoIssues (code : Option Int) (out errout : List Char)
    (sc : Option (Option Json)) (writeOk : Bool)
    (fileAfter : Option (List Char)) (breakBuild : Bool) : ActionResult :=
  let combined := out ++ errout
  let scanUrl := extractScanUrl combined sc
  let written := if writeOk then some combined else none
  let fileOutput :=
    match fileAfter with
    | some fc => if combined.length < fc.length then fc else combined
    | none => combined
  let scanUrlFinal :=
    match scanUrl with
    | some u => some u
    | none => extractScanUrl fileOutput sc
  let failed :=
    match code with
    | some c => decide (0 < c) && breakBuild
    | none => false
  { scanUrl := scanUrlFinal, written := written, failed := failed }

/-- File-system-and-log state threaded through a call of extractScanUrl:
the sidecar file, which the function only reads (existsSync and
readFileSync at lines 81-83 are its only file operations), and the
core.info log, which grows by diagnostic lines whose content the spec
declares observational only. -/
structure FsState where
  sidecarFile : Option (Option Json)
  infoLog : List (List Char)

/-- One call of extractScanUrl as a state transformer: the result is
computed from the input text and the sidecar file; the log grows (the
appended entry stands for the diagnostic lines of that call); the
sidecar file is untouched because the function performs no write. -/
def extractScanUrlCall (out : List Char) (st : FsState) : Option (List Char) × FsState :=
  (extractScanUrl out st.sidecarFile,
   { st with infoLog := st.infoLog ++ [out] })

/-- The sidecar document of Scenario D:
records[0].metadata.report holds the string http://x.test/y. -/
def scenDJson : Json :=
  Json.obj [("records",
    Json.arr [Json.obj [("metadata",
      Json.obj [("report", Json.str ("http://x.test/y".data))])]])]

/-! ### List and matcher lemmas -/

/-- Head test used to state that a token run is maximal: the следующий
input either ends or starts with a character outside the class. -/
def headNot (p : Char → Bool) : List Char → Bool
  | [] => true
  | c :: _ => !p c

lemma dropWhile_headNot (p : Char → Bool) (l : List Char) (h : headNot p l = true) :
    l.dropWhile p = l := by
  cases l with
  | nil => rfl
  | cons c cs =>
    simp only [headNot, Bool.not_eq_true'] at h
    simp [List.dropWhile_cons, h]

lemma takeWhile_headNot (p : Char → Bool) (l : List Char) (h : headNot p l = true) :
    l.takeWhile p = [] := by
  cases l with
  | nil => rfl
  | cons c cs =>
    simp only [headNot, Bool.not_eq_true'] at h
    simp [List.takeWhile_cons, h]

lemma dropWhile_all_append (p : Char → Bool) (l1 l2 : List Char) (h : l1.all p = true) :
    (l1 ++ l2).dropWhile p = l2.dropWhile p := by
  induction l1 with
  | nil => rfl
  | cons c cs ih =>
    simp only [List.all_cons, Bool.and_eq_true] at h
    simp [List.dropWhile_cons, h.1, ih h.2]

lemma takeWhile_all_append (p : Char → Bool) (l1 l2 : List Char) (h : l1.all p = true) :
    (l1 ++ l2).takeWhile p = l1 ++ l2.takeWhile p := by
  induction l1 with
  | nil => rfl
  | cons c cs ih =>
    simp only [List.all_cons, Bool.and_eq_true] at h
    simp [List.takeWhile_cons, h.1, ih h.2]

lemma matchClassPlus_exact (p : Char → Bool) (w rest : List Char)
    (hw : w ≠ []) (hwa : w.all p = true) (hr : headNot p rest = true) :
    matchClassPlus p (w ++ rest) = some rest := by
  cases w with
  | nil => exact absurd rfl hw
  | cons c cs =>
    simp only [List.all_cons, Bool.and_eq_true] at hwa
    rw [List.cons_append]
    unfold matchClassPlus
    simp [hwa.1, dropWhile_all_append p cs rest hwa.2, dropWhile_headNot p rest hr]

lemma capturePlus_exact (p : Char → Bool) (u rest : List Char)
    (hu : u ≠ []) (hua : u.all p = true) (hr : headNot p rest = true) :
    capturePlus p (u ++ rest) = some (u, rest) := by
  cases u with
  | nil => exact absurd rfl hu
  | cons c cs =>
    simp only [List.all_cons, Bool.and_eq_true] at hua
    rw [List.cons_append]
    unfold capturePlus
    simp [hua.1, takeWhile_all_append p cs rest hua.2, takeWhile_headNot p rest hr,
          dropWhile_all_append p cs rest hua.2, dropWhile_headNot p rest hr]

lemma matchLit_append : ∀ (lit p rest : List Char), p.map lcChar = lit →
    matchLit lit (p ++ rest) = some rest := by
  intro lit
  induction lit with
  | nil =>
    intro p rest hp
    cases p with
    | nil => rfl
    | cons c cs => simp at hp
  | cons l ls ih =>
    intro p rest hp
    cases p with
    | nil => simp at hp
    | cons c cs =>
      simp only [List.map_cons, List.cons.injEq] at hp
      rw [List.cons_append]
      unfold matchLit
      simp [hp.1, ih cs rest hp.2]

lemma ne_nil_of_map_lc (p d : List Char) (h : p.map lcChar = d) (hd : d ≠ []) : p ≠ [] := by
  intro hp
  rw [hp] at h
  exact hd h.symm

lemma headNot_isWs_of_all (l : List Char) (h : l.all notWs = true) :
    headNot isWs l = true := by
  cases l with
  | nil => rfl
  | cons c cs =>
    simp only [List.all_cons, Bool.and_eq_true, notWs, Bool.not_eq_true'] at h
    simp [headNot, h.1]

lemma headNot_isWs_append (l rest : List Char) (h1 : l ≠ []) (h2 : l.all notWs = true) :
    headNot isWs (l ++ rest) = true := by
  cases l with
  | nil => exact absurd rfl h1
  | cons c cs =>
    simp only [List.all_cons, Bool.and_eq_true, notWs, Bool.not_eq_true'] at h2
    simp [headNot, h2.1]

lemma matchPhrase_exact (p1 w1 p2 w2 p3 rest : List Char)
    (hp1 : p1.map lcChar = "full".data)
    (hw1 : w1 ≠ []) (hw1a : w1.all isWs = true)
    (hp2 : p2.map lcChar = "report".data) (hp2n : p2.all notWs = true)
    (hw2 : w2 ≠ []) (hw2a : w2.all isWs = true)
    (hp3 : p3.map lcChar = "details".data) (hp3n : p3.all notWs = true) :
    matchPhrase (p1 ++ (w1 ++ (p2 ++ (w2 ++ (p3 ++ rest))))) = some rest := by
  have hp2ne : p2 ≠ [] := ne_nil_of_map_lc p2 _ hp2 (by decide)
  have hp3ne : p3 ≠ [] := ne_nil_of_map_lc p3 _ hp3 (by decide)
  simp only [matchPhrase, matchLit_append _ p1 _ hp1,
             matchClassPlus_exact isWs w1 _ hw1 hw1a (headNot_isWs_append p2 _ hp2ne hp2n),
             matchLit_append _ p2 _ hp2,
             matchClassPlus_exact isWs w2 _ hw2 hw2a (headNot_isWs_append p3 _ hp3ne hp3n),
             matchLit_append _ p3 _ hp3]

lemma matchSchemeSlash_http (rest : List Char) :
    matchSchemeSlash ("http://".data ++ rest) = some ("http://".data, rest) := rfl

lemma matchSchemeSlash_https (rest : List Char) :
    matchSchemeSlash ("https://".data ++ rest) = some ("https://".data, rest) := rfl

lemma startsWithL_append_self : ∀ (p r : List Char), startsWithL p (p ++ r) = true := by
  intro p r
  induction p with
  | nil => rfl
  | cons c cs ih => simp [startsWithL, ih]

lemma validateUrl_ne_nil (u : List Char) (h : validateUrl u = true) : u ≠ [] := by
  intro hu
  subst hu
  exact absurd h (by decide)

lemma trim_all_notWs (u : List Char) (h : u.all notWs = true) : trim u = u := by
  have h1 : headNot isWs u = true := headNot_isWs_of_all u h
  have h2 : u.reverse.all notWs = true := by
    rw [List.all_reverse]
    exact h
  have h3 : headNot isWs u.reverse = true := headNot_isWs_of_all u.reverse h2
  unfold trim trimL
  rw [dropWhile_headNot isWs u h1, dropWhile_headNot isWs u.reverse h3, List.reverse_reverse]

lemma scan_of (m : List Char → Option (List Char)) :
    ∀ (text : List Char) (k : Nat) (v : List Char),
      (∀ n, n < k → m (text.drop n) = none) →
      m (text.drop k) = some v →
      scan m text = some v := by
  intro text
  induction text with
  | nil =>
    intro k v hlt hk
    cases k with
    | zero => simpa [scan] using hk
    | succ k2 =>
      have h0 := hlt 0 (Nat.succ_pos _)
      simp only [List.drop_nil] at h0 hk
      rw [h0] at hk
      cases hk
  | cons c rest ih =>
    intro k v hlt hk
    cases k with
    | zero =>
      simp only [List.drop_zero] at hk
      unfold scan
      rw [hk]
    | succ k2 =>
      have h0 := hlt 0 (Nat.succ_pos _)
      simp only [List.drop_zero] at h0
      unfold scan
      rw [h0]
      refine ih k2 v ?_ ?_
      · intro n hn
        have := hlt (n + 1) (Nat.succ_lt_succ hn)
        simpa [List.drop_succ_cons] using this
      · simpa [List.drop_succ_cons] using hk

lemma anchored1_exact (p1 w1 p2 w2 p3 W sch u2 suf : List Char)
    (hp1 : p1.map lcChar = "full".data)
    (hw1 : w1 ≠ []) (hw1a : w1.all isWs = true)
    (hp2 : p2.map lcChar = "report".data) (hp2n : p2.all notWs = true)
    (hw2 : w2 ≠ []) (hw2a : w2.all isWs = true)
    (hp3 : p3.map lcChar = "details".data) (hp3n : p3.all notWs = true)
    (hW : W ≠ []) (hWa : W.all isWs = true)
    (hsch : sch = "http://".data ∨ sch = "https://".data)
    (hu : u2 ≠ []) (hun : u2.all notWs = true)
    (hsuf : headNot notWs suf = true) :
    anchored1 (p1 ++ (w1 ++ (p2 ++ (w2 ++ (p3 ++ (W ++ (sch ++ (u2 ++ suf)))))))) =
      some (sch ++ u2) := by
  have hschne : sch ≠ [] := by rcases hsch with rfl | rfl <;> decide
  have hscha : sch.all notWs = true := by rcases hsch with rfl | rfl <;> decide
  have hhead : headNot isWs (sch ++ (u2 ++ suf)) = true :=
    headNot_isWs_append sch _ hschne hscha
  have hcls : matchClassPlus isWs (W ++ (sch ++ (u2 ++ suf))) = some (sch ++ (u2 ++ suf)) :=
    matchClassPlus_exact isWs W _ hW hWa hhead
  have hsch2 : matchSchemeSlash (sch ++ (u2 ++ suf)) = some (sch, u2 ++ suf) := by
    rcases hsch with rfl | rfl
    · exact matchSchemeSlash_http _
    · exact matchSchemeSlash_https _
  have hcap : capturePlus notWs (u2 ++ suf) = some (u2, suf) :=
    capturePlus_exact notWs u2 suf hu hun hsuf
  simp only [anchored1,
             matchPhrase_exact p1 w1 p2 w2 p3 _ hp1 hw1 hw1a hp2 hp2n hw2 hw2a hp3 hp3n,
             hcls, hsch2, hcap]

/-- Claim C2, amended: for every input text containing the phrase Full
Report Details (any letter case, any whitespace runs between the words)
followed by whitespace and a whitespace-delimited URL token that starts,
case sensitively, with http:// or https://, and such that the
URL-anchored pattern has no match starting before this occurrence,
extractScanUrl returns exactly that URL token (trimming is the identity
on it since it contains no whitespace), for every sidecar state.  The
counterexample extract_c2_cex shows the leftmost-occurrence condition is
needed: an earlier occurrence whose token has an upper-case scheme is
matched first, fails validation, and suppresses the later valid one. -/
theorem extract_c2 (text pre p1 w1 p2 w2 p3 W sch u2 suf : List Char)
    (file : Option (Option Json))
    (hp1 : p1.map lcChar = "full".data)
    (hw1 : w1 ≠ []) (hw1a : w1.all isWs = true)
    (hp2 : p2.map lcChar = "report".data) (hp2n : p2.all notWs = true)
    (hw2 : w2 ≠ []) (hw2a : w2.all isWs = true)
    (hp3 : p3.map lcChar = "details".data) (hp3n : p3.all notWs = true)
    (hW : W ≠ []) (hWa : W.all isWs = true)
    (hsch : sch = "http://".data ∨ sch = "https://".data)
    (hu : u2 ≠ []) (hun : u2.all notWs = true)
    (hsuf : headNot notWs suf = true)
    (htext : text = pre ++ (p1 ++ (w1 ++ (p2 ++ (w2 ++ (p3 ++ (W ++ (sch ++ (u2 ++ suf)))))))))
    (hleft : ∀ n, n < pre.length → anchored1 (text.drop n) = none) :
    extractScanUrl text file = some (sch ++ u2) := by
  subst htext
  have hdrop := List.drop_left pre (p1 ++ (w1 ++ (p2 ++ (w2 ++ (p3 ++ (W ++ (sch ++ (u2 ++ suf))))))))
  have hanch := anchored1_exact p1 w1 p2 w2 p3 W sch u2 suf hp1 hw1 hw1a hp2 hp2n
    hw2 hw2a hp3 hp3n hW hWa hsch hu hun hsuf
  have hscan : scan anchored1
      (pre ++ (p1 ++ (w1 ++ (p2 ++ (w2 ++ (p3 ++ (W ++ (sch ++ (u2 ++ suf))))))))) =
      some (sch ++ u2) :=
    scan_of anchored1 _ pre.length _ hleft (by rw [hdrop]; exact hanch)
  have hall : (sch ++ u2).all notWs = true := by
    rw [List.all_append, hun]
    rcases hsch with rfl | rfl <;> decide
  have htrim : trim (sch ++ u2) = sch ++ u2 := trim_all_notWs _ hall
  have hval : validateUrl (sch ++ u2) = true := by
    rcases hsch with rfl | rfl
    · unfold validateUrl
      rw [startsWithL_append_self, Bool.true_or]
    · unfold validateUrl
      rw [startsWithL_append_self, Bool.or_true]
  have hstep : stepPattern anchored1
      (pre ++ (p1 ++ (w1 ++ (p2 ++ (w2 ++ (p3 ++ (W ++ (sch ++ (u2 ++ suf))))))))) =
      some (sch ++ u2) := by
    simp [stepPattern, hscan, htrim, hval]
  have hp1ne : p1 ≠ [] := ne_nil_of_map_lc p1 _ hp1 (by decide)
  have hne : pre ++ (p1 ++ (w1 ++ (p2 ++ (w2 ++ (p3 ++ (W ++ (sch ++ (u2 ++ suf)))))))) ≠ [] := by
    intro h
    rcases List.append_eq_nil.mp h with ⟨h1, h2⟩
    rcases List.append_eq_nil.mp h2 with ⟨h3, h4⟩
    exact hp1ne h3
  unfold extractScanUrl
  rw [if_neg hne]
  simp only [tryPatterns, hstep]

/-! ### Validation and sidecar lemmas -/

lemma sidecarOkSome (j : Json) (u : List Char)
    (h : sidecarExtract j = Except.ok (some u)) :
    reportAccess j = some (Json.str u) ∧ validateUrl u = true := by
  unfold sidecarExtract at h
  repeat' split at h
  all_goals simp_all [reportAccess]

lemma stepPatternValidated (m : List Char → Option (List Char)) (out u : List Char)
    (h : stepPattern m out = some u) : validateUrl u = true := by
  unfold stepPattern at h
  split at h
  · simp at h
  · split at h
    · rename_i hv
      obtain rfl := Option.some.inj h
      exact hv
    · simp at h

lemma sidecarAttemptSomeSome (j : Json) :
    sidecarAttempt (some (some j)) =
      match sidecarExtract j with
      | Except.error _ => none
      | Except.ok r => r := rfl

lemma tryPatternsValidated (out u : List Char) (h : tryPatterns out = some u) :
    validateUrl u = true := by
  unfold tryPatterns at h
  split at h
  · rename_i v heq
    obtain rfl := Option.some.inj h
    exact stepPatternValidated _ _ _ heq
  · rename_i heq1
    split at h
    · rename_i v heq
      obtain rfl := Option.some.inj h
      exact stepPatternValidated _ _ _ heq
    · rename_i heq2
      split at h
      · rename_i v heq
        obtain rfl := Option.some.inj h
        exact stepPatternValidated _ _ _ heq
      · rename_i heq3
        exact stepPatternValidated _ _ _ h

lemma sidecarValidated (file : Option (Option Json)) (u : List Char)
    (h : sidecarAttempt file = some u) : validateUrl u = true := by
  cases file with
  | none => simp [sidecarAttempt] at h
  | some f =>
    cases f with
    | none => simp [sidecarAttempt] at h
    | some j =>
      rw [sidecarAttemptSomeSome] at h
      split at h
      · simp at h
      · rename_i r heq
        subst h
        exact (sidecarOkSome _ _ heq).2

lemma extractValidatedAux (out : List Char) (file : Option (Option Json)) (u : List Char)
    (h : extractScanUrl out file = some u) : validateUrl u = true := by
  unfold extractScanUrl at h
  split at h
  · simp at h
  · split at h
    · rename_i v heq
      obtain rfl := Option.some.inj h
      exact tryPatternsValidated _ _ heq
    · exact sidecarValidated _ _ h

lemma sidecarNoneOf (j : Json)
    (hrep : ∀ s, reportAccess j ≠ some (Json.str s)) :
    sidecarAttempt (some (some j)) = none := by
  rw [sidecarAttemptSomeSome]
  split
  · rfl
  · rename_i r heq
    cases r with
    | none => rfl
    | some u => exact absurd (sidecarOkSome _ _ heq).1 (hrep u)

lemma extractCongrSidecar (out : List Char) (f1 f2 : Option (Option Json))
    (h : sidecarAttempt f1 = sidecarAttempt f2) :
    extractScanUrl out f1 = extractScanUrl out f2 := by
  unfold extractScanUrl
  split
  · rfl
  · cases htp : tryPatterns out <;> simp [htp, h]

/-! ### cleanCollectors lemmas -/

lemma cleanCollectorsEq : ∀ arr : List (List Char),
    cleanCollectors arr
      = (arr.filter (fun x => decide (x ≠ [] ∧ (trim x).map lcChar ∈ collectors))).map
          (fun x => (trim x).map lcChar) := by
  intro arr
  induction arr with
  | nil => rfl
  | cons x xs ih =>
    by_cases h : x ≠ [] ∧ (trim x).map lcChar ∈ collectors
    · simp [cleanCollectors, h, List.filter_cons, ih]
    · simp [cleanCollectors, h, List.filter_cons, ih]

lemma cleanCollectorsSubset : ∀ (arr : List (List Char)) (y : List Char),
    y ∈ cleanCollectors arr → y ∈ collectors := by
  intro arr
  induction arr with
  | nil =>
    intro y hy
    simp [cleanCollectors] at hy
  | cons x xs ih =>
    intro y hy
    unfold cleanCollectors at hy
    by_cases h : x ≠ [] ∧ (trim x).map lcChar ∈ collectors
    · rw [if_pos h] at hy
      rcases List.mem_cons.mp hy with rfl | hy2
      · exact h.2
      · exact ih y hy2
    · rw [if_neg h] at hy
      exact ih y hy

/-! ### Claim theorems -/

/-- Claim C1, counterexample: with empty input text and a sidecar file
present whose records[0].metadata.report is the valid URL
http://x.test/y, extractScanUrl returns the absence value, not the
sidecar URL: the empty-output guard at srcclr.ts line 32 returns before
the sidecar fallback is reached. -/
theorem extract_c1_cex :
    extractScanUrl [] (some (some scenDJson)) = none ∧
      extractScanUrl [] (some (some scenDJson)) ≠ some ("http://x.test/y".data) :=
  ⟨rfl, by decide⟩

/-- Claim C1, amended: for empty input text, extractScanUrl returns the
absence value whatever the sidecar state; the sidecar is only consulted
for non-empty input. -/
theorem extract_c1_amended : ∀ file : Option (Option Json), extractScanUrl [] file = none :=
  fun _ => rfl

/-- Claim C2, counterexample: the input contains the phrase followed by
whitespace and the well-formed URL token https://b.example/c, yet
extractScanUrl returns the absence value: the earlier occurrence with
the upper-case scheme token HTTP://a is the first match of every
pattern, fails the case-sensitive validation, and no later match of the
same pattern is tried. -/
theorem extract_c2_cex :
    extractScanUrl
        ("Full Report Details HTTP://a\nFull Report Details https://b.example/c".data) none
      = none ∧
      extractScanUrl
          ("Full Report Details HTTP://a\nFull Report Details https://b.example/c".data) none
        ≠ some ("https://b.example/c".data) :=
  ⟨by decide, by decide⟩

/-- Claim C2, witness: Scenario A through the amended theorem. -/
theorem extract_c2_w :
    extractScanUrl ("Build OK\nFull Report Details   https://scan.example.com/r/123\n".data) none
      = some ("https://scan.example.com/r/123".data) := by
  have h := extract_c2
    ("Build OK\nFull Report Details   https://scan.example.com/r/123\n".data)
    ("Build OK\n".data) ("Full".data) (" ".data) ("Report".data) (" ".data)
    ("Details".data) ("   ".data) ("https://".data) ("scan.example.com/r/123".data)
    ("\n".data) none
    (by decide) (by decide) (by decide) (by decide) (by decide) (by decide) (by decide)
    (by decide) (by decide) (by decide) (by decide) (Or.inr rfl) (by decide) (by decide)
    (by decide) (by decide) (by decide)
  exact h.trans (by decide)

/-- Claim C3: a structurally matching pattern whose captured token does
not begin, case sensitively, with http:// or https:// never yields the
result: Scenario B returns absence with no sidecar, an upper-case
scheme token is rejected the same way, the rejected match falls through
to the sidecar fallback when one is available, and in general every
returned value passes the scheme validation. -/
theorem extract_c3 :
    extractScanUrl ("Full Report Details: not-a-url".data) none = none ∧
      extractScanUrl ("Full Report Details HTTPS://x".data) none = none ∧
      extractScanUrl ("Full Report Details: not-a-url".data) (some (some scenDJson))
          = some ("http://x.test/y".data) ∧
      ∀ (out : List Char) (file : Option (Option Json)) (u : List Char),
        extractScanUrl out file = some u → validateUrl u = true :=
  ⟨by decide, by decide, by decide, fun out file u h => extractValidatedAux out file u h⟩

/-- Claim C3, witness: the general clause applied at Scenario B text
with the Scenario D sidecar. -/
theorem extract_c3_w : validateUrl ("http://x.test/y".data) = true :=
  extract_c3.2.2.2 ("Full Report Details: not-a-url".data) (some (some scenDJson))
    ("http://x.test/y".data) (by decide)

/-- Claim C4: for non-empty input on which no pattern yields a validated
URL, when the sidecar file exists, parses, and its
records[0].metadata.report is a string starting with http:// or
https://, extractScanUrl returns that sidecar URL. -/
theorem extract_c4 (out : List Char) (kvs kvs0 kvsm : List (String × Json))
    (rs : List Json) (s : List Char)
    (h1 : out ≠ [])
    (h2 : tryPatterns out = none)
    (h3 : lookupKey kvs "records" = some (Json.arr (Json.obj kvs0 :: rs)))
    (h4 : lookupKey kvs0 "metadata" = some (Json.obj kvsm))
    (h5 : lookupKey kvsm "report" = some (Json.str s))
    (h6 : validateUrl s = true) :
    extractScanUrl out (some (some (Json.obj kvs))) = some s := by
  have hs : s ≠ [] := validateUrl_ne_nil s h6
  have hse : s.isEmpty = false := by
    cases s with
    | nil => exact absurd rfl hs
    | cons a l => rfl
  unfold extractScanUrl
  rw [if_neg h1, h2]
  rw [sidecarAttemptSomeSome]
  unfold sidecarExtract
  simp [Json.propA, Json.truthy, h3, h4, h5, h6, hse]

/-- Claim C4, witness: a text with no phrase match together with the
Scenario D sidecar document. -/
theorem extract_c4_w :
    extractScanUrl ("nothing here".data) (some (some scenDJson))
      = some ("http://x.test/y".data) := by
  have h := extract_c4 ("nothing here".data)
    [("records", Json.arr [Json.obj [("metadata",
        Json.obj [("report", Json.str ("http://x.test/y".data))])]])]
    [("metadata", Json.obj [("report", Json.str ("http://x.test/y".data))])]
    [("report", Json.str ("http://x.test/y".data))]
    [] ("http://x.test/y".data)
    (by decide) (by decide) rfl rfl rfl (by decide)
  exact h

/-- Claim C5: every result of extractScanUrl is either the absence value
or a string beginning with http:// or https://; no other string is ever
returned, for any input text and any sidecar state. -/
theorem extract_c5 (out : List Char) (file : Option (Option Json)) (u : List Char)
    (h : extractScanUrl out file = some u) : validateUrl u = true :=
  extractValidatedAux out file u h

/-- Claim C5, witness: applied at Scenario A. -/
theorem extract_c5_w : validateUrl ("https://scan.example.com/r/123".data) = true :=
  extract_c5 ("Build OK\nFull Report Details   https://scan.example.com/r/123\n".data) none
    ("https://scan.example.com/r/123".data) (by decide)

/-- Claim C6: a missing sidecar file, a sidecar whose JSON parse throws,
and a parsed sidecar lacking a string records[0].metadata.report all
give the same result as an absent sidecar; extraction never throws,
every such state degrades to the no-URL-from-sidecar outcome. -/
theorem extract_c6 (out : List Char) (file : Option (Option Json))
    (h : file = none ∨ file = some none ∨
         ∃ j, file = some (some j) ∧ ∀ s, reportAccess j ≠ some (Json.str s)) :
    extractScanUrl out file = extractScanUrl out none := by
  rcases h with rfl | rfl | ⟨j, rfl, hrep⟩
  · rfl
  · exact extractCongrSidecar out _ _ rfl
  · exact extractCongrSidecar out _ _ (by rw [sidecarNoneOf j hrep]; rfl)

/-- Claim C6, witness: malformed sidecar JSON gives the same result as a
missing sidecar. -/
theorem extract_c6_w :
    extractScanUrl ("no report line".data) (some none)
      = extractScanUrl ("no report line".data) none :=
  extract_c6 ("no report line".data) (some none) (Or.inr (Or.inl rfl))

/-- Claim C7, code evaluation at the failing configuration: when the
Windows createIssues invocation fails (non-zero exit) after printing a
valid report line to standard error, the catch block extracts from the
still-empty output local instead of the captured streams, so no URL is
produced; the sibling Windows branch and the spawn close handler do
recover the URL from the same captured error-stream content. -/
theorem extract_c7_bug :
    winCreateIssuesScanUrl
        (Except.error ([], "Full Report Details https://scan.example.com/r/123\n".data)) none
      = none ∧
      winNoIssuesScanUrl
          (Except.error ([], "Full Report Details https://scan.example.com/r/123\n".data)) none
        = some ("https://scan.example.com/r/123".data) ∧
      (onCloseNoIssues (some 2) []
          ("Full Report Details https://scan.example.com/r/123\n".data)
          none true none false).scanUrl
        = some ("https://scan.example.com/r/123".data) :=
  ⟨rfl, by decide, by decide⟩

/-- Claim C8, counterexample: in the Windows branch the result file
receives only the stdout text; with stdout A and stderr B recovered from
a failed invocation, scaResults.txt gets A, not the combined AB that the
claim specifies. -/
theorem extract_c8_cex :
    winNoIssuesWritten (Except.error ("A".data, "B".data)) true = some ("A".data) ∧
      winNoIssuesWritten (Except.error ("A".data, "B".data)) true
        ≠ some ("A".data ++ "B".data) :=
  ⟨rfl, by decide⟩

/-- Claim C8, amended: in the spawn branch the close handler writes the
full combined stdout plus stderr to the result file, and a write failure
changes neither the extracted scan URL nor the failure status; the
Windows branch writes the stdout part only. -/
theorem extract_c8_amended :
    ∀ (code : Option Int) (out errout : List Char) (sc : Option (Option Json))
      (fileAfter : Option (List Char)) (breakBuild : Bool),
      (onCloseNoIssues code out errout sc true fileAfter breakBuild).written
          = some (out ++ errout) ∧
        (onCloseNoIssues code out errout sc false fileAfter breakBuild).scanUrl
          = (onCloseNoIssues code out errout sc true fileAfter breakBuild).scanUrl ∧
        (onCloseNoIssues code out errout sc false fileAfter breakBuild).failed
          = (onCloseNoIssues code out errout sc true fileAfter breakBuild).failed ∧
        ∀ eOut eErr : List Char,
          winNoIssuesWritten (Except.error (eOut, eErr)) true = some eOut :=
  fun _ _ _ _ _ _ => ⟨rfl, rfl, rfl, fun _ _ => rfl⟩

/-- Claim C9: one call of extractScanUrl leaves the sidecar file
untouched (the function only reads it), so a second call on the same
text in the state left by the first returns the same value, even though
the diagnostic log has grown in between. -/
theorem extract_c9 :
    ∀ (out : List Char) (st : FsState),
      (extractScanUrlCall out (extractScanUrlCall out st).2).1
          = (extractScanUrlCall out st).1 ∧
        (extractScanUrlCall out st).2.sidecarFile = st.sidecarFile :=
  fun _ _ => ⟨rfl, rfl⟩

/-- Claim C10: cleanCollectors keeps exactly the entries whose trimmed,
lower-cased form occurs in the fixed allow list, returned in input order
in that trimmed lower-cased form; every other entry is dropped, every
returned name is in the allow list, and the allow list has 23 entries. -/
theorem extract_c10 (arr : List (List Char)) :
    cleanCollectors arr
        = (arr.filter (fun x => decide (x ≠ [] ∧ (trim x).map lcChar ∈ collectors))).map
            (fun x => (trim x).map lcChar) ∧
      (∀ y, y ∈ cleanCollectors arr → y ∈ collectors) ∧
      collectors.length = 23 :=
  ⟨cleanCollectorsEq arr, fun y hy => cleanCollectorsSubset arr y hy, rfl⟩

/-- Claim C10, witness: the allow-list membership clause applied to a
concrete input holding a padded upper-case entry, an unknown entry, and
an empty entry. -/
theorem extract_c10_w : ("maven".data) ∈ collectors :=
  (extract_c10 [" MAVEN ".data, "bogus".data, []]).2.1 ("maven".data) (by decide)
